import Mathlib

/-!
Shallow embedding of the sentiment-scoring core of `app.py` (range-position
scorer, the two weighted index aggregators, zone classifiers, composite
signal engine) over exact rational arithmetic, together with proofs of the
specification claims about it.

Conventions of the embedding:
* Python floats are modelled as `ℚ`; `None` as `Option.none`.
* `round(x, n)` is modelled as round-half-to-even on the shifted rational
  (Python 3 banker's rounding), `pyRound`.
* dictionary weight tables with `.get(key, 0)` are modelled as total
  functions `String → ℚ`.
-/

namespace App

/-- `max(0, min(1, x))` — the clamp used throughout the source. -/
def clamp01 (x : ℚ) : ℚ := max 0 (min 1 x)

/-- Python 3 `round` to an integer: round half to even. -/
def pyRound (q : ℚ) : ℤ :=
  if q - ⌊q⌋ = (1 : ℚ) / 2 then (if ⌊q⌋ % 2 = 0 then ⌊q⌋ else ⌊q⌋ + 1)
  else round q

/-- Python `round(q, 3)`. -/
def round3 (q : ℚ) : ℚ := (pyRound (q * 1000) : ℚ) / 1000

/-- Python `round(q, 4)`. -/
def round4 (q : ℚ) : ℚ := (pyRound (q * 10000) : ℚ) / 10000

/-- `calculate_price_strength(ltp, high, low)` from `app.py` (lines 905-925):
validates that all inputs are positive, rejects `high == low` and
`high < low`, otherwise returns `(ltp - low) / (high - low)` clamped to
`[0, 1]`.  (The source's non-numeric-input rejection is outside this
embedding: inputs here are rationals by type.) -/
def calculate_price_strength (ltp high low : ℚ) : Option ℚ :=
  if ltp > 0 ∧ high > 0 ∧ low > 0 then
    if high = low then none
    else if high < low then none
    else some (clamp01 ((ltp - low) / (high - low)))
  else none

lemma clamp01_nonneg (x : ℚ) : 0 ≤ clamp01 x := le_max_left _ _

lemma clamp01_le_one (x : ℚ) : clamp01 x ≤ 1 := by
  unfold clamp01
  rcases le_total (1 : ℚ) x with h | h
  · simp [min_eq_left h]
  · rcases le_total (0 : ℚ) x with h0 | h0 <;> simp [min_eq_right h] <;> linarith

lemma clamp01_mono {x y : ℚ} (h : x ≤ y) : clamp01 x ≤ clamp01 y :=
  max_le_max le_rfl (min_le_min le_rfl h)

/-- Success case of the range-position scorer, shared by several proofs. -/
lemma calculate_price_strength_eq_some {ltp high low : ℚ}
    (hl : 0 < ltp) (hh : 0 < high) (hlo : 0 < low) (hr : low < high) :
    calculate_price_strength ltp high low
      = some (clamp01 ((ltp - low) / (high - low))) := by
  unfold calculate_price_strength
  rw [if_pos ⟨hl, hh, hlo⟩, if_neg (by linarith), if_neg (by linarith)]

/-- C3: the Range-Position Scorer returns `none` exactly when an input is
non-positive, or `high = low`, or `high < low`; otherwise it returns
`clamp((last - low) / (high - low), 0, 1)`. -/
theorem price_strength_contract (ltp high low : ℚ) :
    (calculate_price_strength ltp high low = none ↔
      (ltp ≤ 0 ∨ high ≤ 0 ∨ low ≤ 0 ∨ high = low ∨ high < low)) ∧
    (0 < ltp → 0 < high → 0 < low → low < high →
      calculate_price_strength ltp high low
        = some (max 0 (min 1 ((ltp - low) / (high - low))))) := by
  constructor
  · by_cases hA : ltp > 0 ∧ high > 0 ∧ low > 0
    · by_cases hB : high = low
      · rw [calculate_price_strength, if_pos hA, if_pos hB]
        exact iff_of_true rfl (Or.inr (Or.inr (Or.inr (Or.inl hB))))
      · by_cases hC : high < low
        · rw [calculate_price_strength, if_pos hA, if_neg hB, if_pos hC]
          exact iff_of_true rfl (Or.inr (Or.inr (Or.inr (Or.inr hC))))
        · rw [calculate_price_strength, if_pos hA, if_neg hB, if_neg hC]
          refine iff_of_false (by simp) ?_
          push_neg
          exact ⟨hA.1, hA.2.1, hA.2.2, hB, not_lt.mp hC⟩
    · rw [calculate_price_strength, if_neg hA]
      refine iff_of_true rfl ?_
      push_neg at hA
      rcases le_or_lt ltp 0 with h | h
      · exact Or.inl h
      · rcases le_or_lt high 0 with h' | h'
        · exact Or.inr (Or.inl h')
        · exact Or.inr (Or.inr (Or.inl (hA h h')))
  · intro hl hh hlo hr
    exact calculate_price_strength_eq_some hl hh hlo hr

/-- Witness for `price_strength_contract` at `(5, 10, 1)`. -/
theorem price_strength_contract_witness :
    calculate_price_strength 5 10 1 = some (max 0 (min 1 ((5 - 1) / (10 - 1)))) :=
  (price_strength_contract 5 10 1).2 (by norm_num) (by norm_num) (by norm_num)
    (by norm_num)

/-- C4: for `high > low > 0` and `low ≤ last ≤ high` the scorer's output is
defined, lies in `[0, 1]`, and is monotonically non-decreasing in `last`. -/
theorem price_strength_monotone (last1 last2 high low : ℚ)
    (hlo : 0 < low) (hr : low < high)
    (h1 : low ≤ last1) (h12 : last1 ≤ last2) (h2 : last2 ≤ high) :
    ∃ s1 s2, calculate_price_strength last1 high low = some s1 ∧
      calculate_price_strength last2 high low = some s2 ∧
      0 ≤ s1 ∧ s1 ≤ 1 ∧ 0 ≤ s2 ∧ s2 ≤ 1 ∧ s1 ≤ s2 := by
  have hl1 : 0 < last1 := lt_of_lt_of_le hlo h1
  have hl2 : 0 < last2 := lt_of_lt_of_le hl1 h12
  have hh : 0 < high := lt_trans hlo hr
  refine ⟨_, _, calculate_price_strength_eq_some hl1 hh hlo hr,
    calculate_price_strength_eq_some hl2 hh hlo hr,
    clamp01_nonneg _, clamp01_le_one _, clamp01_nonneg _, clamp01_le_one _, ?_⟩
  apply clamp01_mono
  have hd : (0 : ℚ) < high - low := by linarith
  gcongr

/-- Witness for `price_strength_monotone` at `last1 = 2`, `last2 = 7`,
`high = 10`, `low = 1`. -/
theorem price_strength_monotone_witness :
    ∃ s1 s2, calculate_price_strength 2 10 1 = some s1 ∧
      calculate_price_strength 7 10 1 = some s2 ∧
      0 ≤ s1 ∧ s1 ≤ 1 ∧ 0 ≤ s2 ∧ s2 ≤ 1 ∧ s1 ≤ s2 :=
  price_strength_monotone 2 7 10 1 (by norm_num) (by norm_num) (by norm_num)
    (by norm_num) (by norm_num)

/-- One entry of `stocks_data` as consumed by `calculate_index_price_action`:
the fields it reads (`symbol`, `ltp`, `high`, `low`). -/
structure StockQuote where
  symbol : String
  ltp : ℚ
  high : ℚ
  low : ℚ
  deriving DecidableEq

/-- `matchesAt pattern l` checks whether `pattern` is an initial segment of
`l` (helper for the model of Python `str.replace`). -/
def matchesAt : List Char → List Char → Bool
  | [], _ => true
  | _ :: _, [] => false
  | p :: ps, c :: cs => p == c && matchesAt ps cs

/-- Fuel-driven scan for `strReplace`: at each position, if the pattern
matches, emit the replacement and skip past the match, otherwise keep the
character and move one position right (Python's left-to-right,
non-overlapping `str.replace`). -/
def replaceFuel (pattern repl : List Char) : Nat → List Char → List Char
  | 0, s => s
  | _ + 1, [] => []
  | fuel + 1, c :: rest =>
    if matchesAt pattern (c :: rest) then
      repl ++ replaceFuel pattern repl fuel (List.drop pattern.length (c :: rest))
    else c :: replaceFuel pattern repl fuel rest

/-- Model of Python `s.replace(pattern, repl)` for a non-empty pattern
(the source only replaces the non-empty patterns `"28OCT25FUT"` and
`"-EQ"`). -/
def strReplace (s pattern repl : String) : String :=
  if pattern = "" then s
  else ⟨replaceFuel pattern.data repl.data s.data.length s.data⟩

/-- Model of Python `s.upper()` (per-character ASCII uppercase). -/
def strUpper (s : String) : String := ⟨s.data.map Char.toUpper⟩

/-- Symbol cleaning from `calculate_index_price_action` (lines 948-950):
uppercase, then strip the `28OCT25FUT` and `-EQ` suffixes. -/
def cleanSymbol (s : String) : String :=
  strReplace (strReplace (strUpper s) "28OCT25FUT" "") "-EQ" ""

/-- One iteration of the accumulation loop of `calculate_index_price_action`
(lines 947-976): skip the index's own `BANKNIFTY` ticker, look up the
weight (0 if unmapped), require `weight > 0` and positive `high`, `low`,
`ltp`, require a defined price strength, then add `weight * strength` to the
first accumulator and `weight` to the second. -/
def paStep (index_weights : String → ℚ) (acc : ℚ × ℚ) (stock : StockQuote) :
    ℚ × ℚ :=
  if cleanSymbol stock.symbol = "BANKNIFTY" then acc
  else if index_weights (cleanSymbol stock.symbol) > 0 ∧ stock.high > 0 ∧
      stock.low > 0 ∧ stock.ltp > 0 then
    match calculate_price_strength stock.ltp stock.high stock.low with
    | some price_strength =>
        (acc.1 + index_weights (cleanSymbol stock.symbol) * price_strength,
         acc.2 + index_weights (cleanSymbol stock.symbol))
    | none => acc
  else acc

/-- The pair `(total_weighted_strength, total_weights)` after the loop of
`calculate_index_price_action`. -/
def paAccum (index_weights : String → ℚ) (stocks : List StockQuote) : ℚ × ℚ :=
  stocks.foldl (paStep index_weights) (0, 0)

/-- The `(weight, strength)` pairs of the instruments actually included by
the loop of `calculate_index_price_action` (those that pass every skip
condition). -/
def includedPairs (index_weights : String → ℚ) (stocks : List StockQuote) :
    List (ℚ × ℚ) :=
  stocks.filterMap (fun stock =>
    if cleanSymbol stock.symbol = "BANKNIFTY" then none
    else if index_weights (cleanSymbol stock.symbol) > 0 ∧ stock.high > 0 ∧
        stock.low > 0 ∧ stock.ltp > 0 then
      (calculate_price_strength stock.ltp stock.high stock.low).map
        (fun price_strength =>
          (index_weights (cleanSymbol stock.symbol), price_strength))
    else none)

/-- `calculate_index_price_action(stocks_data, index_weights)` from `app.py`
(lines 927-996): `None` on empty input, `None` when the accumulated weight
is zero, otherwise the weighted average rounded to 3 decimals. -/
def calculate_index_price_action (stocks_data : List StockQuote)
    (index_weights : String → ℚ) : Option ℚ :=
  if stocks_data = [] then none
  else if (paAccum index_weights stocks_data).2 = 0 then none
  else some (round3 ((paAccum index_weights stocks_data).1 /
    (paAccum index_weights stocks_data).2))

/-- The weighted average before the final `round(_, 3)`. -/
def pa_raw_score (index_weights : String → ℚ) (stocks : List StockQuote) : ℚ :=
  (paAccum index_weights stocks).1 / (paAccum index_weights stocks).2

lemma paFold_eq (index_weights : String → ℚ) (stocks : List StockQuote) :
    ∀ acc : ℚ × ℚ, stocks.foldl (paStep index_weights) acc =
      (acc.1 + ((includedPairs index_weights stocks).map
          (fun p => p.1 * p.2)).sum,
       acc.2 + ((includedPairs index_weights stocks).map Prod.fst).sum) := by
  induction stocks with
  | nil => intro acc; simp [includedPairs]
  | cons st rest ih =>
    intro acc
    rw [List.foldl_cons, ih]
    by_cases hb : cleanSymbol st.symbol = "BANKNIFTY"
    · have hstep : paStep index_weights acc st = acc := by
        rw [paStep, if_pos hb]
      have hinc : includedPairs index_weights (st :: rest) =
          includedPairs index_weights rest := by
        rw [includedPairs, includedPairs]
        apply List.filterMap_cons_none
        show (if cleanSymbol st.symbol = "BANKNIFTY" then none else _) = none
        rw [if_pos hb]
      rw [hstep, hinc]
    · by_cases hc : index_weights (cleanSymbol st.symbol) > 0 ∧ st.high > 0 ∧
          st.low > 0 ∧ st.ltp > 0
      · cases hs : calculate_price_strength st.ltp st.high st.low with
        | none =>
            have hstep : paStep index_weights acc st = acc := by
              rw [paStep, if_neg hb, if_pos hc, hs]
            have hinc : includedPairs index_weights (st :: rest) =
                includedPairs index_weights rest := by
              rw [includedPairs, includedPairs]
              apply List.filterMap_cons_none
              show (if cleanSymbol st.symbol = "BANKNIFTY" then none else _) = none
              rw [if_neg hb, if_pos hc, hs, Option.map_none']
            rw [hstep, hinc]
        | some s =>
            have hstep : paStep index_weights acc st =
                (acc.1 + index_weights (cleanSymbol st.symbol) * s,
                 acc.2 + index_weights (cleanSymbol st.symbol)) := by
              rw [paStep, if_neg hb, if_pos hc, hs]
            have hinc : includedPairs index_weights (st :: rest) =
                (index_weights (cleanSymbol st.symbol), s) ::
                  includedPairs index_weights rest := by
              rw [includedPairs, includedPairs]
              apply List.filterMap_cons_some
              show (if cleanSymbol st.symbol = "BANKNIFTY" then none else _)
                = some _
              rw [if_neg hb, if_pos hc, hs, Option.map_some']
            rw [hstep, hinc]
            simp only [List.map_cons, List.sum_cons, Prod.mk.injEq]
            constructor <;> ring
      · have hstep : paStep index_weights acc st = acc := by
          rw [paStep, if_neg hb, if_neg hc]
        have hinc : includedPairs index_weights (st :: rest) =
            includedPairs index_weights rest := by
          rw [includedPairs, includedPairs]
          apply List.filterMap_cons_none
          show (if cleanSymbol st.symbol = "BANKNIFTY" then none else _) = none
          rw [if_neg hb, if_neg hc]
        rw [hstep, hinc]

lemma paAccum_eq (index_weights : String → ℚ) (stocks : List StockQuote) :
    paAccum index_weights stocks =
      (((includedPairs index_weights stocks).map (fun p => p.1 * p.2)).sum,
       ((includedPairs index_weights stocks).map Prod.fst).sum) := by
  rw [paAccum, paFold_eq]
  simp

lemma calculate_price_strength_mem {ltp high low s : ℚ}
    (h : calculate_price_strength ltp high low = some s) : 0 ≤ s ∧ s ≤ 1 := by
  unfold calculate_price_strength at h
  split_ifs at h
  rw [Option.some_inj] at h
  exact h ▸ ⟨clamp01_nonneg _, clamp01_le_one _⟩

lemma includedPairs_mem {index_weights : String → ℚ} {stocks : List StockQuote}
    {p : ℚ × ℚ} (hp : p ∈ includedPairs index_weights stocks) :
    0 < p.1 ∧ 0 ≤ p.2 ∧ p.2 ≤ 1 := by
  rw [includedPairs, List.mem_filterMap] at hp
  obtain ⟨st, _, hst⟩ := hp
  by_cases hb : cleanSymbol st.symbol = "BANKNIFTY"
  · rw [if_pos hb] at hst; cases hst
  · rw [if_neg hb] at hst
    by_cases hc : index_weights (cleanSymbol st.symbol) > 0 ∧ st.high > 0 ∧
        st.low > 0 ∧ st.ltp > 0
    · rw [if_pos hc] at hst
      cases hs : calculate_price_strength st.ltp st.high st.low with
      | none => rw [hs] at hst; cases hst
      | some s =>
          rw [hs, Option.map_some', Option.some_inj] at hst
          have hmem := calculate_price_strength_mem hs
          exact hst ▸ ⟨hc.1, hmem.1, hmem.2⟩
    · rw [if_neg hc] at hst; cases hst

lemma pairs_sum_bounds (pairs : List (ℚ × ℚ)) (lo hi : ℚ)
    (hw : ∀ p ∈ pairs, 0 < p.1)
    (hs : ∀ p ∈ pairs, lo ≤ p.2 ∧ p.2 ≤ hi) :
    lo * (pairs.map Prod.fst).sum ≤ (pairs.map (fun p => p.1 * p.2)).sum ∧
    (pairs.map (fun p => p.1 * p.2)).sum ≤ hi * (pairs.map Prod.fst).sum := by
  induction pairs with
  | nil => simp
  | cons p rest ih =>
    have hp := hw p (List.mem_cons_self p rest)
    have hsp := hs p (List.mem_cons_self p rest)
    have ihr := ih (fun q hq => hw q (List.mem_cons_of_mem p hq))
      (fun q hq => hs q (List.mem_cons_of_mem p hq))
    simp only [List.map_cons, List.sum_cons]
    constructor
    · calc lo * (p.1 + (rest.map Prod.fst).sum)
          = p.1 * lo + lo * (rest.map Prod.fst).sum := by ring
        _ ≤ p.1 * p.2 + (rest.map (fun q => q.1 * q.2)).sum :=
          add_le_add (mul_le_mul_of_nonneg_left hsp.1 hp.le) ihr.1
    · calc p.1 * p.2 + (rest.map (fun q => q.1 * q.2)).sum
          ≤ p.1 * hi + hi * (rest.map Prod.fst).sum :=
          add_le_add (mul_le_mul_of_nonneg_left hsp.2 hp.le) ihr.2
        _ = hi * (p.1 + (rest.map Prod.fst).sum) := by ring

lemma pairs_weight_nonneg (pairs : List (ℚ × ℚ))
    (hw : ∀ p ∈ pairs, 0 < p.1) : 0 ≤ (pairs.map Prod.fst).sum := by
  induction pairs with
  | nil => simp
  | cons p rest ih =>
    simp only [List.map_cons, List.sum_cons]
    have := hw p (List.mem_cons_self p rest)
    have := ih (fun q hq => hw q (List.mem_cons_of_mem p hq))
    linarith

/-- C5: whenever `calculate_index_price_action` returns a number, the
weighted average before the final 3-decimal rounding is a convex
combination of the included constituents' strengths: it is bounded by any
lower/upper bound of those strengths (in particular by their minimum and
maximum), and it always lies in `[0, 1]`. -/
theorem price_action_convex_combination (stocks : List StockQuote)
    (index_weights : String → ℚ) (r lo hi : ℚ)
    (hres : calculate_index_price_action stocks index_weights = some r)
    (hlo : ∀ p ∈ includedPairs index_weights stocks, lo ≤ p.2)
    (hhi : ∀ p ∈ includedPairs index_weights stocks, p.2 ≤ hi) :
    lo ≤ pa_raw_score index_weights stocks ∧
    pa_raw_score index_weights stocks ≤ hi ∧
    0 ≤ pa_raw_score index_weights stocks ∧
    pa_raw_score index_weights stocks ≤ 1 ∧
    r = round3 (pa_raw_score index_weights stocks) := by
  rw [calculate_index_price_action] at hres
  split_ifs at hres with h1 h2
  have hW0 : ((includedPairs index_weights stocks).map Prod.fst).sum ≠ 0 := by
    intro h
    apply h2
    rw [paAccum_eq]
    exact h
  have hWpos : 0 < ((includedPairs index_weights stocks).map Prod.fst).sum :=
    lt_of_le_of_ne
      (pairs_weight_nonneg _ (fun p hp => (includedPairs_mem hp).1)) (Ne.symm hW0)
  have hraw : pa_raw_score index_weights stocks =
      ((includedPairs index_weights stocks).map (fun p => p.1 * p.2)).sum /
        ((includedPairs index_weights stocks).map Prod.fst).sum := by
    rw [pa_raw_score, paAccum_eq]
  have hbound := pairs_sum_bounds (includedPairs index_weights stocks) lo hi
    (fun p hp => (includedPairs_mem hp).1) (fun p hp => ⟨hlo p hp, hhi p hp⟩)
  have hbound01 := pairs_sum_bounds (includedPairs index_weights stocks) 0 1
    (fun p hp => (includedPairs_mem hp).1)
    (fun p hp => ⟨(includedPairs_mem hp).2.1, (includedPairs_mem hp).2.2⟩)
  refine ⟨?_, ?_, ?_, ?_, ?_⟩
  · rw [hraw, le_div_iff₀ hWpos]
    exact hbound.1
  · rw [hraw, div_le_iff₀ hWpos]
    calc ((includedPairs index_weights stocks).map (fun p => p.1 * p.2)).sum
        ≤ hi * ((includedPairs index_weights stocks).map Prod.fst).sum :=
          hbound.2
      _ = hi * ((includedPairs index_weights stocks).map Prod.fst).sum := rfl
  · rw [hraw]
    apply div_nonneg _ hWpos.le
    have := hbound01.1
    linarith
  · rw [hraw, div_le_one hWpos]
    have := hbound01.2
    linarith
  · rw [Option.some_inj] at hres
    rw [← hres, pa_raw_score]

/-- Witness for `price_action_convex_combination`: one included stock with
strength `4/9` and weight `50`; the score is `round3 (4/9) = 111/250`. -/
theorem price_action_convex_combination_witness :
    (4 : ℚ) / 9 ≤ pa_raw_score (fun s => if s = "RELIANCE" then 50 else 0)
        [⟨"RELIANCE", 5, 10, 1⟩] ∧
    pa_raw_score (fun s => if s = "RELIANCE" then 50 else 0)
        [⟨"RELIANCE", 5, 10, 1⟩] ≤ (4 : ℚ) / 9 ∧
    0 ≤ pa_raw_score (fun s => if s = "RELIANCE" then 50 else 0)
        [⟨"RELIANCE", 5, 10, 1⟩] ∧
    pa_raw_score (fun s => if s = "RELIANCE" then 50 else 0)
        [⟨"RELIANCE", 5, 10, 1⟩] ≤ 1 ∧
    (111 : ℚ) / 250 = round3 (pa_raw_score
        (fun s => if s = "RELIANCE" then 50 else 0) [⟨"RELIANCE", 5, 10, 1⟩]) := by
  have hclean : cleanSymbol "RELIANCE" = "RELIANCE" := by decide
  have hpairs : includedPairs (fun s => if s = "RELIANCE" then 50 else 0)
      [⟨"RELIANCE", 5, 10, 1⟩] = [((50 : ℚ), (4 : ℚ) / 9)] := by
    rw [includedPairs, List.filterMap_cons, List.filterMap_nil]
    simp only [hclean]
    rw [if_neg (by decide), if_pos (by norm_num),
      calculate_price_strength_eq_some (by norm_num) (by norm_num) (by norm_num)
        (by norm_num), Option.map_some']
    norm_num [clamp01]
  have hres : calculate_index_price_action [⟨"RELIANCE", 5, 10, 1⟩]
      (fun s => if s = "RELIANCE" then 50 else 0) = some ((111 : ℚ) / 250) := by
    have hacc := paAccum_eq (fun s => if s = "RELIANCE" then 50 else 0)
      [⟨"RELIANCE", 5, 10, 1⟩]
    rw [hpairs] at hacc
    rw [calculate_index_price_action, if_neg (by decide), hacc]
    norm_num [round3, pyRound, round_eq]
  exact price_action_convex_combination [⟨"RELIANCE", 5, 10, 1⟩]
    (fun s => if s = "RELIANCE" then 50 else 0) ((111 : ℚ) / 250)
    ((4 : ℚ) / 9) ((4 : ℚ) / 9) hres
    (by rw [hpairs]; intro p hp; rw [List.mem_singleton] at hp; simp [hp])
    (by rw [hpairs]; intro p hp; rw [List.mem_singleton] at hp; simp [hp])

/-- One entry of `market_data` as consumed by `calculate_meter_value`
(lines 1418-1518): `weight`, `percentChange`, `netChangeOpnInterest`,
`opnInterest`, `tradeVolume`, `pcr` (a missing `pcr` key and the sentinel
default `1.0` coincide in the source, so `pcr` is a plain field here). -/
structure IssQuote where
  weight : ℚ
  percentChange : ℚ
  netChangeOpnInterest : ℚ
  opnInterest : ℚ
  tradeVolume : ℚ
  pcr : ℚ
  deriving DecidableEq

/-- OI-change percentage per instrument (lines 1442-1456): real OI change
when current OI is positive and the change is non-zero, otherwise the
volume-intensity proxy `(volume/100000) * (percentChange/10)` (0 when the
volume or the price change is zero). -/
def oi_change (stock : IssQuote) : ℚ :=
  if stock.opnInterest > 0 ∧ stock.netChangeOpnInterest ≠ 0 then
    stock.netChangeOpnInterest / stock.opnInterest * 100
  else if stock.tradeVolume > 0 then
    if stock.percentChange ≠ 0 then
      stock.tradeVolume / 100000 * (stock.percentChange / 10)
    else 0
  else 0

/-- PCR per instrument (lines 1458-1465): the provided value unless it is
the sentinel `1.0`, in which case a heuristic proxy is synthesized from the
price change. -/
def pcr_value (stock : IssQuote) : ℚ :=
  if stock.pcr = 1 then
    if stock.percentChange > 0 then 1.1 + stock.percentChange / 100
    else 0.9 + stock.percentChange / 100
  else stock.pcr

/-- The four running sums of the loop of `calculate_meter_value`
(lines 1429-1471). -/
structure MeterSums where
  weighted_price_change : ℚ
  weighted_oi_change : ℚ
  weighted_pcr : ℚ
  total_weight : ℚ

/-- One iteration of the accumulation loop of `calculate_meter_value`
(lines 1434-1471): every instrument contributes, whatever its weight. -/
def meterStep (acc : MeterSums) (stock : IssQuote) : MeterSums :=
  ⟨acc.weighted_price_change + stock.weight * stock.percentChange,
   acc.weighted_oi_change + stock.weight * oi_change stock,
   acc.weighted_pcr + stock.weight * pcr_value stock,
   acc.total_weight + stock.weight⟩

/-- The sums after the loop of `calculate_meter_value`. -/
def meterSums (market_data : List IssQuote) : MeterSums :=
  market_data.foldl meterStep ⟨0, 0, 0, 0⟩

/-- `calculate_meter_value(market_data)` from `app.py` (lines 1418-1518):
`0.0` on empty input, `0.0` on zero total weight, otherwise the three
weight-normalized averages pushed through the fixed affine maps (price
`(x+2)/4`, OI `(x+5)/10`, PCR `(x-0.5)/1`, each clamped to `[0,1]`) and
blended `0.4/0.4/0.2`, clamped to `[0,1]`. -/
def calculate_meter_value (market_data : List IssQuote) : ℚ :=
  if market_data = [] then 0
  else if (meterSums market_data).total_weight = 0 then 0
  else
    clamp01 (0.4 * clamp01 (((meterSums market_data).weighted_price_change /
        (meterSums market_data).total_weight + 2) / 4)
      + 0.4 * clamp01 (((meterSums market_data).weighted_oi_change /
        (meterSums market_data).total_weight + 5) / 10)
      + 0.2 * clamp01 (((meterSums market_data).weighted_pcr /
        (meterSums market_data).total_weight - 0.5) / 1))

lemma calculate_meter_value_nonneg (md : List IssQuote) :
    0 ≤ calculate_meter_value md := by
  rw [calculate_meter_value]
  split_ifs
  · norm_num
  · norm_num
  · exact clamp01_nonneg _

lemma calculate_meter_value_le_one (md : List IssQuote) :
    calculate_meter_value md ≤ 1 := by
  rw [calculate_meter_value]
  split_ifs
  · norm_num
  · norm_num
  · exact clamp01_le_one _

/-- C2: zero-weight asymmetry between the two aggregators — the
Price-Action aggregator yields `none` on an empty list and whenever the
accumulated weight is zero, while the ISS aggregator yields the number
`0` in the corresponding cases (and, being `ℚ`-valued, never `none`). -/
theorem zero_weight_asymmetry (index_weights : String → ℚ) :
    calculate_index_price_action [] index_weights = none ∧
    (∀ stocks : List StockQuote, (paAccum index_weights stocks).2 = 0 →
      calculate_index_price_action stocks index_weights = none) ∧
    calculate_meter_value [] = 0 ∧
    (∀ md : List IssQuote, (meterSums md).total_weight = 0 →
      calculate_meter_value md = 0) := by
  refine ⟨rfl, ?_, rfl, ?_⟩
  · intro stocks h
    rw [calculate_index_price_action]
    split_ifs <;> rfl
  · intro md h
    rw [calculate_meter_value]
    split_ifs <;> rfl

/-- Witness for `zero_weight_asymmetry`: a non-empty all-zero-weight input
on each side. -/
theorem zero_weight_asymmetry_witness :
    calculate_index_price_action [⟨"TCS", 5, 10, 1⟩] (fun _ => 0) = none ∧
    calculate_meter_value [⟨0, 1, 0, 0, 0, 2⟩] = 0 := by
  constructor
  · apply (zero_weight_asymmetry (fun _ => 0)).2.1
    rw [paAccum, List.foldl_cons, List.foldl_nil, paStep, if_neg (by decide),
      if_neg (by norm_num)]
  · apply (zero_weight_asymmetry (fun _ => 0)).2.2.2
    rw [meterSums, List.foldl_cons, List.foldl_nil, meterStep]
    norm_num

/-- C6: the ISS aggregator uses exactly the affine normalization maps of
the spec (price `(x+2)/4`, OI `(x+5)/10`, PCR `(x-0.5)/1`, each clamped),
blends them `0.4/0.4/0.2` with a final clamp, and its result always lies
in `[0, 1]`. -/
theorem meter_value_normalization (md : List IssQuote) :
    (0 ≤ calculate_meter_value md ∧ calculate_meter_value md ≤ 1) ∧
    (md ≠ [] → (meterSums md).total_weight ≠ 0 →
      calculate_meter_value md =
        max 0 (min 1 (0.4 * max 0 (min 1 (((meterSums md).weighted_price_change /
            (meterSums md).total_weight + 2) / 4))
          + 0.4 * max 0 (min 1 (((meterSums md).weighted_oi_change /
            (meterSums md).total_weight + 5) / 10))
          + 0.2 * max 0 (min 1 (((meterSums md).weighted_pcr /
            (meterSums md).total_weight - 0.5) / 1))))) := by
  refine ⟨⟨calculate_meter_value_nonneg md, calculate_meter_value_le_one md⟩,
    fun hne htw => ?_⟩
  rw [calculate_meter_value, if_neg hne, if_neg htw]
  rfl

/-- Witness for `meter_value_normalization`: one instrument with weight 10,
price change `+1%`, no OI, no volume, PCR 2 gives ISS
`0.4·0.75 + 0.4·0.5 + 0.2·1 = 0.7`. -/
theorem meter_value_normalization_witness :
    calculate_meter_value [⟨10, 1, 0, 0, 0, 2⟩] = 7 / 10 := by
  have hsums : meterSums [⟨10, 1, 0, 0, 0, 2⟩] = ⟨10, 0, 20, 10⟩ := by
    rw [meterSums, List.foldl_cons, List.foldl_nil, meterStep]
    norm_num [oi_change, pcr_value]
  have h := (meter_value_normalization [⟨10, 1, 0, 0, 0, 2⟩]).2 (by simp)
    (by rw [hsums]; norm_num)
  rw [h, hsums]
  norm_num

/-- `market_data` with every weight multiplied by `c` (all other fields
unchanged). -/
def scaleWeights (c : ℚ) (md : List IssQuote) : List IssQuote :=
  md.map (fun stock => { stock with weight := c * stock.weight })

lemma oi_change_scale (c : ℚ) (stock : IssQuote) :
    oi_change { stock with weight := c * stock.weight } = oi_change stock := rfl

lemma pcr_value_scale (c : ℚ) (stock : IssQuote) :
    pcr_value { stock with weight := c * stock.weight } = pcr_value stock := rfl

lemma meterFold_scale (c : ℚ) (md : List IssQuote) : ∀ acc : MeterSums,
    (scaleWeights c md).foldl meterStep
        ⟨c * acc.weighted_price_change, c * acc.weighted_oi_change,
         c * acc.weighted_pcr, c * acc.total_weight⟩ =
      ⟨c * (md.foldl meterStep acc).weighted_price_change,
       c * (md.foldl meterStep acc).weighted_oi_change,
       c * (md.foldl meterStep acc).weighted_pcr,
       c * (md.foldl meterStep acc).total_weight⟩ := by
  induction md with
  | nil => intro acc; rfl
  | cons st rest ih =>
    intro acc
    rw [scaleWeights, List.map_cons, List.foldl_cons, List.foldl_cons]
    have hstep : meterStep
        ⟨c * acc.weighted_price_change, c * acc.weighted_oi_change,
         c * acc.weighted_pcr, c * acc.total_weight⟩
        { st with weight := c * st.weight } =
        ⟨c * (meterStep acc st).weighted_price_change,
         c * (meterStep acc st).weighted_oi_change,
         c * (meterStep acc st).weighted_pcr,
         c * (meterStep acc st).total_weight⟩ := by
      rw [meterStep, meterStep, oi_change_scale, pcr_value_scale]
      simp only [MeterSums.mk.injEq]
      refine ⟨by ring, by ring, by ring, by ring⟩
    rw [hstep]
    exact ih (meterStep acc st)

lemma meterSums_scale (c : ℚ) (md : List IssQuote) :
    meterSums (scaleWeights c md) =
      ⟨c * (meterSums md).weighted_price_change,
       c * (meterSums md).weighted_oi_change,
       c * (meterSums md).weighted_pcr,
       c * (meterSums md).total_weight⟩ := by
  have h := meterFold_scale c md ⟨0, 0, 0, 0⟩
  simpa [meterSums] using h

/-- C7: uniformly scaling all instrument weights by a positive constant
leaves the ISS aggregator's result unchanged. -/
theorem meter_scale_invariance (md : List IssQuote) (c : ℚ) (hc : 0 < c) :
    calculate_meter_value (scaleWeights c md) = calculate_meter_value md := by
  rw [calculate_meter_value, calculate_meter_value]
  have hempty : scaleWeights c md = [] ↔ md = [] := by
    simp [scaleWeights]
  by_cases hmd : md = []
  · rw [if_pos (hempty.mpr hmd), if_pos hmd]
  · rw [if_neg (fun h => hmd (hempty.mp h)), if_neg hmd]
    have hs := meterSums_scale c md
    by_cases htw : (meterSums md).total_weight = 0
    · rw [if_pos htw, if_pos (by rw [hs, htw, mul_zero])]
    · have htw2 : (meterSums (scaleWeights c md)).total_weight ≠ 0 := by
        rw [hs]
        exact mul_ne_zero hc.ne' htw
      rw [if_neg htw2, if_neg htw, hs]
      simp only [mul_div_mul_left _ _ hc.ne']

/-- Witness for `meter_scale_invariance`: doubling the weight of a single
instrument does not change the meter. -/
theorem meter_scale_invariance_witness :
    calculate_meter_value (scaleWeights 2 [⟨10, 1, 0, 0, 0, 2⟩]) =
      calculate_meter_value [⟨10, 1, 0, 0, 0, 2⟩] :=
  meter_scale_invariance [⟨10, 1, 0, 0, 0, 2⟩] 2 (by norm_num)

/-- Return record of `generate_composite_signal` (lines 1280-1341). -/
structure SignalResult where
  action : String
  description : String
  confidence : String
  color : String
  deriving DecidableEq

/-- `generate_composite_signal(current_value, prev_value, momentum)` from
`app.py` (lines 1280-1341); `buy_threshold = 0.65`, `sell_threshold = 0.35`,
`momentum_threshold = 0.05` are inlined. -/
def generate_composite_signal (current_value prev_value momentum : ℚ) :
    SignalResult :=
  if current_value ≥ 0.65 ∧ prev_value < 0.65 ∧ momentum > 0.05 then
    ⟨"STRONG_BUY", "Fresh bullish breakout with momentum", "High", "success"⟩
  else if current_value ≤ 0.35 ∧ prev_value > 0.35 ∧ momentum < -0.05 then
    ⟨"STRONG_SELL", "Fresh bearish breakdown with momentum", "High", "danger"⟩
  else if current_value ≥ 0.65 ∧ prev_value < 0.65 then
    ⟨"BUY", "Bullish zone entry", "Medium", "success"⟩
  else if current_value ≤ 0.35 ∧ prev_value > 0.35 then
    ⟨"SELL", "Bearish zone entry", "Medium", "danger"⟩
  else if current_value > 0.65 then
    ⟨"HOLD_LONG", "Maintain bullish bias", "Medium", "info"⟩
  else if current_value < 0.35 then
    ⟨"HOLD_SHORT", "Maintain bearish bias", "Medium", "warning"⟩
  else
    ⟨"NEUTRAL", "Range-bound / choppy market", "Low", "secondary"⟩

/-- First-match evaluation over an ordered rule list. -/
def firstMatch : List (Bool × String × String) → String × String → String × String
  | [], d => d
  | (c, r) :: rest, d => if c then r else firstMatch rest d

/-- Modelled from the spec, section 4.6: the seven `(condition, action,
confidence)` rules of the Signal Generator in their stated order. -/
def spec_signal_rules (current_value prev_value momentum : ℚ) :
    List (Bool × String × String) :=
  [(decide (current_value ≥ 0.65 ∧ prev_value < 0.65 ∧ momentum > 0.05),
      "STRONG_BUY", "High"),
   (decide (current_value ≤ 0.35 ∧ prev_value > 0.35 ∧ momentum < -0.05),
      "STRONG_SELL", "High"),
   (decide (current_value ≥ 0.65 ∧ prev_value < 0.65), "BUY", "Medium"),
   (decide (current_value ≤ 0.35 ∧ prev_value > 0.35), "SELL", "Medium"),
   (decide (current_value > 0.65), "HOLD_LONG", "Medium"),
   (decide (current_value < 0.35), "HOLD_SHORT", "Medium"),
   (true, "NEUTRAL", "Low")]

/-- Modelled from the spec, section 4.6: the first matching rule wins. -/
def spec_signal (current_value prev_value momentum : ℚ) : String × String :=
  firstMatch (spec_signal_rules current_value prev_value momentum)
    ("NEUTRAL", "Low")

/-- C1: the signal generator realizes exactly the spec's first-match rule
order, and it is hysteresis-gated: with `prev_value` already at or above
the buy threshold `0.65` it never returns `BUY`/`STRONG_BUY`, and with
`prev_value` already at or below `0.35` it never returns
`SELL`/`STRONG_SELL`. -/
theorem signal_hysteresis (current_value prev_value momentum : ℚ) :
    ((generate_composite_signal current_value prev_value momentum).action,
      (generate_composite_signal current_value prev_value momentum).confidence) =
        spec_signal current_value prev_value momentum ∧
    (0.65 ≤ prev_value →
      (generate_composite_signal current_value prev_value momentum).action ≠ "BUY" ∧
      (generate_composite_signal current_value prev_value momentum).action ≠ "STRONG_BUY") ∧
    (prev_value ≤ 0.35 →
      (generate_composite_signal current_value prev_value momentum).action ≠ "SELL" ∧
      (generate_composite_signal current_value prev_value momentum).action ≠ "STRONG_SELL") := by
  refine ⟨?_, ?_, ?_⟩
  · rw [generate_composite_signal, spec_signal, spec_signal_rules]
    simp only [firstMatch, decide_eq_true_eq, if_true]
    split_ifs <;> rfl
  · intro hpv
    rw [generate_composite_signal]
    split_ifs with h1 h2 h3 h4 h5 h6
    · exact absurd h1.2.1 (not_lt.mpr hpv)
    · decide
    · exact absurd h3.2 (not_lt.mpr hpv)
    · decide
    · decide
    · decide
    · decide
  · intro hpv
    rw [generate_composite_signal]
    split_ifs with h1 h2 h3 h4 h5 h6
    · decide
    · exact absurd h2.2.1 (not_lt.mpr hpv)
    · decide
    · exact absurd h4.2 (not_lt.mpr hpv)
    · decide
    · decide
    · decide

/-- Witness for `signal_hysteresis`: at `(0.72, 0.70, 0.01)` — value still
above the buy threshold after a previous point already above it — the
action is neither `BUY` nor `STRONG_BUY` (it is in fact `HOLD_LONG`). -/
theorem signal_hysteresis_witness :
    (generate_composite_signal 0.72 0.70 0.01).action ≠ "BUY" ∧
    (generate_composite_signal 0.72 0.70 0.01).action ≠ "STRONG_BUY" :=
  (signal_hysteresis 0.72 0.70 0.01).2.1 (by norm_num)

/-- Return record of `get_price_action_zone` (lines 998-1041). -/
structure ZoneResult where
  zone : String
  description : String
  action : String
  color : String
  icon : String
  deriving DecidableEq

/-- `get_price_action_zone(score)` from `app.py` (lines 998-1041). -/
def get_price_action_zone (score : ℚ) : ZoneResult :=
  if score ≤ 0.2 then
    ⟨"Deep Bear", "Strong sell-off; price hugging day\x27s lows",
     "Avoid longs; watch for reversal setups", "danger", "🔴"⟩
  else if score ≤ 0.4 then
    ⟨"Weak", "Sellers still active; mild relief possible",
     "Only scalp; trend still down", "warning", "🟡"⟩
  else if score ≤ 0.6 then
    ⟨"Neutral", "Tug-of-war; could break any side",
     "Wait for breakout or confirm with OI", "secondary", "⚪"⟩
  else if score ≤ 0.8 then
    ⟨"Bullish", "Buyers in control; pullbacks get bought",
     "Prefer long trades with OI support", "success", "🟢"⟩
  else
    ⟨"Strong Bull", "Index at/near highs",
     "Trail profits; beware of exhaustion", "info", "🔵"⟩

/-- C8: the price-action zone bands are inclusive at their upper ends —
`≤ 0.2` Deep Bear, `(0.2, 0.4]` Weak, `(0.4, 0.6]` Neutral, `(0.6, 0.8]`
Bullish, `> 0.8` Strong Bull — so `0.2` is Deep Bear while `0.2000001`
is Weak. -/
theorem price_action_zone_bands (score : ℚ) :
    (score ≤ 0.2 → (get_price_action_zone score).zone = "Deep Bear") ∧
    (0.2 < score → score ≤ 0.4 → (get_price_action_zone score).zone = "Weak") ∧
    (0.4 < score → score ≤ 0.6 → (get_price_action_zone score).zone = "Neutral") ∧
    (0.6 < score → score ≤ 0.8 → (get_price_action_zone score).zone = "Bullish") ∧
    (0.8 < score → (get_price_action_zone score).zone = "Strong Bull") ∧
    (get_price_action_zone 0.2).zone = "Deep Bear" ∧
    (get_price_action_zone 0.2000001).zone = "Weak" := by
  refine ⟨?_, ?_, ?_, ?_, ?_, ?_, ?_⟩
  · intro h
    rw [get_price_action_zone, if_pos h]
  · intro h1 h2
    rw [get_price_action_zone, if_neg (not_le.mpr h1), if_pos h2]
  · intro h1 h2
    rw [get_price_action_zone, if_neg (by linarith), if_neg (not_le.mpr h1),
      if_pos h2]
  · intro h1 h2
    rw [get_price_action_zone, if_neg (by linarith), if_neg (by linarith),
      if_neg (not_le.mpr h1), if_pos h2]
  · intro h1
    rw [get_price_action_zone, if_neg (by linarith), if_neg (by linarith),
      if_neg (by linarith), if_neg (not_le.mpr h1)]
  · rw [get_price_action_zone, if_pos (by norm_num)]
  · rw [get_price_action_zone, if_neg (by norm_num), if_pos (by norm_num)]

/-- Witness for `price_action_zone_bands`: a score strictly inside each of
the middle bands. -/
theorem price_action_zone_bands_witness :
    (get_price_action_zone (1 / 2)).zone = "Neutral" ∧
    (get_price_action_zone (7 / 10)).zone = "Bullish" :=
  ⟨(price_action_zone_bands (1 / 2)).2.2.1 (by norm_num) (by norm_num),
   (price_action_zone_bands (7 / 10)).2.2.2.1 (by norm_num) (by norm_num)⟩

/-- Return record of `get_meter_status` (lines 1520-1566). -/
structure MeterStatus where
  status : String
  color : String
  icon : String
  action : String
  trade_type : String
  confidence : String
  deriving DecidableEq

/-- `get_meter_status(iss_score)` from `app.py` (lines 1520-1566); the two
`�` characters reproduce the replacement characters present in the
source file. -/
def get_meter_status (iss_score : ℚ) : MeterStatus :=
  if 0.75 ≤ iss_score ∧ iss_score ≤ 1.00 then
    ⟨"Strong Bullish", "success", "�",
     "🚀 Go Long (Calls / Futures Buy / BTST Calls)",
     "Long buildup, heavy long positions", "� Strong"⟩
  else if 0.60 ≤ iss_score ∧ iss_score < 0.75 then
    ⟨"Mild Bullish", "info", "⚡", "📈 Buy on dips, avoid shorts",
     "Possible intraday uptrend continuation", "⚡ Mild"⟩
  else if 0.40 ≤ iss_score ∧ iss_score < 0.60 then
    ⟨"Neutral", "secondary", "⚖️",
     "⚖️ Avoid directional trades; scalp both sides",
     "Uncertain / consolidation", "⚖️ Neutral"⟩
  else if 0.25 ≤ iss_score ∧ iss_score < 0.40 then
    ⟨"Mild Bearish", "warning", "🧊", "📉 Sell on rise, avoid longs",
     "Short buildup signals forming", "🧊 Mild"⟩
  else
    ⟨"Strong Bearish", "danger", "❄️",
     "💣 Go Short (Puts / Futures Sell / BTST Puts)",
     "Heavy shorts or profit booking", "❄️ Strong"⟩

/-- C10: the ISS status classifier's top band requires `score ≤ 1`, so any
score strictly above 1 falls through every named band to the final else
and is labelled `Strong Bearish`; this input is unreachable from
`calculate_meter_value`, whose result never exceeds 1. -/
theorem meter_status_overflow :
    (∀ s : ℚ, 1 < s → (get_meter_status s).status = "Strong Bearish") ∧
    (∀ s : ℚ, 0.75 ≤ s → s ≤ 1.00 → (get_meter_status s).status = "Strong Bullish") ∧
    (∀ md : List IssQuote, calculate_meter_value md ≤ 1) := by
  refine ⟨?_, ?_, calculate_meter_value_le_one⟩
  · intro s hs
    rw [get_meter_status]
    split_ifs with h1 h2 h3 h4
    · exact absurd h1.2 (by linarith)
    · exact absurd h2.2 (by linarith)
    · exact absurd h3.2 (by linarith)
    · exact absurd h4.2 (by linarith)
    · rfl
  · intro s h1 h2
    rw [get_meter_status, if_pos ⟨h1, h2⟩]

/-- Witness for `meter_status_overflow`: the out-of-range score 2 lands in
`Strong Bearish`, while the in-range 0.8 lands in `Strong Bullish`. -/
theorem meter_status_overflow_witness :
    (get_meter_status 2).status = "Strong Bearish" ∧
    (get_meter_status (4 / 5)).status = "Strong Bullish" :=
  ⟨meter_status_overflow.1 2 (by norm_num),
   meter_status_overflow.2.1 (4 / 5) (by norm_num) (by norm_num)⟩

/-- One history row as consumed by `calculate_composite_meter`
(lines 1072-1082): the ISS fields are always present on a history row
(they are written on every refresh), the price-action fields are the
optional ones; `time_full` is abstracted to a sortable key. -/
structure HistoryPoint where
  time_full : Nat
  nifty_iss : ℚ
  bank_iss : ℚ
  nifty_price_action : Option ℚ
  bank_price_action : Option ℚ
  deriving DecidableEq

/-- One row of `processed_data` (both price-action fields present). -/
structure ProcessedPoint where
  timestamp : Nat
  nifty_iss : ℚ
  bank_iss : ℚ
  nifty_pa : ℚ
  bank_pa : ℚ
  deriving DecidableEq

/-- The `processed_data` filter of `calculate_composite_meter`
(lines 1072-1082): keep exactly the points whose two price-action fields
are not `None`. -/
def processedData (historical_data : List HistoryPoint) : List ProcessedPoint :=
  historical_data.filterMap (fun point =>
    match point.nifty_price_action, point.bank_price_action with
    | some npa, some bpa =>
        some ⟨point.time_full, point.nifty_iss, point.bank_iss, npa, bpa⟩
    | _, _ => none)

/-- Return record of `get_composite_interpretation` (lines 1343-1416). -/
structure InterpretationResult where
  zone : String
  btst_bias : String
  intraday_bias : String
  description : String
  deriving DecidableEq

/-- `get_composite_interpretation(value, momentum)` from `app.py`
(lines 1343-1416). -/
def get_composite_interpretation (value momentum : ℚ) : InterpretationResult :=
  if value > 0.75 then
    if momentum > 0.05 then
      ⟨"Strong Bull (Rising)", "Long BTST recommended", "Continuation longs",
       "Fresh long buildup with momentum"⟩
    else
      ⟨"Strong Bull (Flat)", "Hold existing longs", "Avoid new entries",
       "Healthy momentum but slowing"⟩
  else if 0.65 ≤ value ∧ value ≤ 0.75 then
    if momentum > 0 then
      ⟨"Bullish", "Selective long BTST", "Trend continuation",
       "Bullish bias with upward momentum"⟩
    else
      ⟨"Bullish (Weakening)", "Book profits on longs", "Cautious on new longs",
       "Bullish but losing steam"⟩
  else if 0.35 ≤ value ∧ value < 0.65 then
    ⟨"Neutral/Choppy", "Avoid BTST trades", "Range-bound scalping",
     "Sideways market, mixed signals"⟩
  else if 0.25 ≤ value ∧ value < 0.35 then
    if momentum < 0 then
      ⟨"Bearish", "Selective short BTST", "Trend shorts",
       "Bearish bias with downward momentum"⟩
    else
      ⟨"Bearish (Stabilizing)", "Wait for clarity", "Cautious on shorts",
       "Bearish but finding support"⟩
  else
    if momentum < -0.05 then
      ⟨"Strong Bear (Falling)", "Short BTST recommended", "Trend shorts",
       "Fresh short buildup with momentum"⟩
    else
      ⟨"Strong Bear (Flat)", "Hold existing shorts", "Avoid new entries",
       "Oversold but momentum slowing"⟩

/-- Per-index output record of the composite calculation (the dict built
at lines 1270-1278). -/
structure CompositeResult where
  current_value : ℚ
  momentum : ℚ
  signal : SignalResult
  interpretation : InterpretationResult
  adaptive_weight : ℚ
  raw_oi : ℚ
  raw_pa : ℚ
  deriving DecidableEq

/-- Python `min(l)` for a non-empty list (junk value 0 on `[]`, which the
source never reaches). -/
def listMin (l : List ℚ) : ℚ := l.foldl min (l.headD 0)

/-- Python `max(l)` for a non-empty list. -/
def listMax (l : List ℚ) : ℚ := l.foldl max (l.headD 0)

/-- `calculate_simple_composite(data, iss_key, pa_key)` from `app.py`
(lines 1218-1278): trailing 12 points, mean-centering, clamped adaptive
blend weight from the last ISS value, 3-point moving average, min/max
normalization with the `1e-8` epsilon, 3-period momentum, then the signal
and interpretation of the final point. -/
def calculate_simple_composite (data : List ProcessedPoint)
    (iss_key pa_key : ProcessedPoint → ℚ) : CompositeResult :=
  let recent_data := data.drop (data.length - 12)
  let oi_values := recent_data.map iss_key
  let pa_values := recent_data.map pa_key
  let oi_mean := oi_values.sum / (oi_values.length : ℚ)
  let pa_mean := pa_values.sum / (pa_values.length : ℚ)
  let oi_centered := oi_values.map (fun v => v - oi_mean)
  let pa_centered := pa_values.map (fun v => v - pa_mean)
  let last_oi := oi_values.getLastD 0
  let adaptive_weight := max 0.2 (min 0.8 ((last_oi - 0.5) * 2))
  let composite_values := List.zipWith
    (fun a b => adaptive_weight * a + (1 - adaptive_weight) * b)
    oi_centered pa_centered
  let smoothed := (List.range composite_values.length).map (fun i =>
    if i < 2 then composite_values.getD i 0
    else (composite_values.getD (i - 2) 0 + composite_values.getD (i - 1) 0 +
      composite_values.getD i 0) / 3)
  let min_val := listMin smoothed
  let max_val := listMax smoothed
  let range_val := max_val - min_val + 1 / 100000000
  let normalized := (smoothed.map (fun v => (v - min_val) / range_val)).map
    (fun v => max 0 (min 1 v))
  let current_value := normalized.getLastD 0
  let prev_value := if normalized.length > 1 then
    normalized.getD (normalized.length - 2) 0 else current_value
  let momentum_prev := if normalized.length > 3 then
    normalized.getD (normalized.length - 4) 0 else normalized.headD 0
  let momentum := current_value - momentum_prev
  ⟨round4 current_value, round4 momentum,
   generate_composite_signal current_value prev_value momentum,
   get_composite_interpretation current_value momentum,
   round3 adaptive_weight, round4 last_oi, round4 (pa_values.getLastD 0)⟩

/-- One chart row built at lines 1137-1146 (timestamps kept as keys, the
string formatting of the source is presentation only). -/
structure ChartPoint where
  time_full : Nat
  nifty_composite : ℚ
  bank_composite : ℚ
  nifty_oi : ℚ
  nifty_pa : ℚ
  bank_oi : ℚ
  bank_pa : ℚ
  deriving DecidableEq

/-- The success payload of `calculate_composite_meter` (lines 1154-1162). -/
structure CompositeMeterResult where
  nifty : CompositeResult
  bank_nifty : CompositeResult
  chart_data : List ChartPoint
  data_points : Nat
  deriving DecidableEq

/-- `calculate_composite_meter(historical_data)` from `app.py`
(lines 1047-1166), in its dependency-free variant
(`calculate_simple_composite`; the guard structure is shared by both
variants): `None` when the raw history has fewer than 12 rows, `None`
when fewer than 12 rows carry both price-action fields, otherwise the
per-index composites over the timestamp-sorted processed rows plus chart
data. -/
def calculate_composite_meter (historical_data : List HistoryPoint) :
    Option CompositeMeterResult :=
  if historical_data.length < 12 then none
  else if (processedData historical_data).length < 12 then none
  else
    let sorted := (processedData historical_data).mergeSort
      (fun a b => a.timestamp ≤ b.timestamp)
    some
      { nifty := calculate_simple_composite sorted
          (fun p => p.nifty_iss) (fun p => p.nifty_pa)
        bank_nifty := calculate_simple_composite sorted
          (fun p => p.bank_iss) (fun p => p.bank_pa)
        chart_data := sorted.map (fun row =>
          ⟨row.timestamp,
           round4 ((row.nifty_iss + row.nifty_pa) / 2),
           round4 ((row.bank_iss + row.bank_pa) / 2),
           round4 row.nifty_iss, round4 row.nifty_pa,
           round4 row.bank_iss, round4 row.bank_pa⟩)
        data_points := (processedData historical_data).length }

lemma processedData_length (historical_data : List HistoryPoint) :
    (processedData historical_data).length =
      historical_data.countP
        (fun p => p.nifty_price_action.isSome && p.bank_price_action.isSome) := by
  induction historical_data with
  | nil => rfl
  | cons p rest ih =>
    cases hnp : p.nifty_price_action with
    | none =>
        have h1 : processedData (p :: rest) = processedData rest := by
          rw [processedData, processedData]
          apply List.filterMap_cons_none
          show (match p.nifty_price_action, p.bank_price_action with
            | some npa, some bpa => some (⟨p.time_full, p.nifty_iss,
                p.bank_iss, npa, bpa⟩ : ProcessedPoint)
            | _, _ => none) = none
          rw [hnp]
        rw [h1, ih, List.countP_cons, hnp]
        simp
    | some npa =>
        cases hbp : p.bank_price_action with
        | none =>
            have h1 : processedData (p :: rest) = processedData rest := by
              rw [processedData, processedData]
              apply List.filterMap_cons_none
              show (match p.nifty_price_action, p.bank_price_action with
                | some npa, some bpa => some (⟨p.time_full, p.nifty_iss,
                    p.bank_iss, npa, bpa⟩ : ProcessedPoint)
                | _, _ => none) = none
              rw [hnp, hbp]
            rw [h1, ih, List.countP_cons, hnp, hbp]
            simp
        | some bpa =>
            have h1 : processedData (p :: rest) =
                ⟨p.time_full, p.nifty_iss, p.bank_iss, npa, bpa⟩ ::
                  processedData rest := by
              rw [processedData, processedData]
              apply List.filterMap_cons_some
              show (match p.nifty_price_action, p.bank_price_action with
                | some npa, some bpa => some (⟨p.time_full, p.nifty_iss,
                    p.bank_iss, npa, bpa⟩ : ProcessedPoint)
                | _, _ => none) = some _
              rw [hnp, hbp]
            rw [h1, List.length_cons, ih, List.countP_cons, hnp, hbp]
            simp

/-- C9: the composite signal engine refuses to run on a short window — if
fewer than 12 history rows have both price-action fields defined (and on a
history row the ISS fields are always defined), `calculate_composite_meter`
returns `none`. -/
theorem composite_meter_needs_12 (historical_data : List HistoryPoint)
    (h : historical_data.countP
      (fun p => p.nifty_price_action.isSome && p.bank_price_action.isSome) < 12) :
    calculate_composite_meter historical_data = none := by
  rw [calculate_composite_meter]
  split_ifs with h1 h2
  · rfl
  · rfl
  · exfalso
    apply h2
    rw [processedData_length]
    exact h

/-- Witness for `composite_meter_needs_12`: the empty history. -/
theorem composite_meter_needs_12_witness :
    calculate_composite_meter [] = none :=
  composite_meter_needs_12 [] (by decide)

end App
